import Mathlib

/-!
Verification development for the exchange-comparison application.

The Python source (src/fx.py, src/compute.py, src/schemas.py) is shallowly
embedded below.  Conventions of the embedding:

* IEEE-754 doubles are idealised as `ℚ`.  All numeric literals of the source
  (`1e12`, `0.2723`, …) are taken at their decimal value.
* `datetime` values are abstracted as `Nat` instants; `date` values as `Nat`
  ordinals.  `datetime.utcnow()` becomes an explicit `now`/`ts` parameter.
* Python `dict`s keyed by strings are association lists (`Dict α`) with
  Python's assignment semantics (`dinsert` replaces in place or appends).
* The two live FX providers (`requests.get` against exchangerate.host and
  frankfurter.app) are injected as oracles (`LiveProviders`); a call outcome
  is `ok` (HTTP 200 with a parsed numeric payload), `httpFail` (non-200
  status or unusable JSON body, which the source skips silently) or `exn`
  (a raised exception whose message the source appends to its error list).
* Code that can raise a Python exception past its own boundary is embedded
  in `Except String`: pydantic's validation of `FXRate` (the `gt=0` check on
  `rate` and the coercion of `base_currency`/`quote_currency` to the
  `Currency` enum, which raises `ValidationError` for an unknown code), and
  the live path's explicit `Currency(...)` conversions, which raise
  `ValueError` likewise — all modelled as errors of `mkFXRate`.
* `get_live_fx_rates` additionally returns, as instrumentation, the list of
  per-currency error notices it accumulated and the list of currencies for
  which a network request was attempted; the source keeps both implicit
  (the `errors` local and the HTTP calls themselves).
* The members of the `Currency(str, Enum)` class compare and hash equal to
  their string values, so currencies are embedded as plain `String`s; the
  one place the source applies `str(...)` to an enum member is modelled by
  `pyEnumStr` (CPython renders `str(Currency.USD)` as `"Currency.USD"`).
-/

namespace ExchangeApp

/-- Association-list model of a Python string-keyed dict. -/
abbrev Dict (α : Type) := List (String × α)

/-- Python dict lookup `m.get(k)`. -/
def dlookup {α : Type} : Dict α → String → Option α
  | [], _ => none
  | p :: rest, k => if p.1 = k then some p.2 else dlookup rest k

/-- Python dict assignment `m[k] = v`: replace in place, else append. -/
def dinsert {α : Type} : Dict α → String → α → Dict α
  | [], k, v => [(k, v)]
  | p :: rest, k, v => if p.1 = k then (k, v) :: rest else p :: dinsert rest k v

/-- Python membership test `k in m`. -/
def dhasKey {α : Type} (m : Dict α) (k : String) : Bool :=
  (dlookup m k).isSome

/-- Python `sep.join(xs)`. -/
def pyJoin (sep : String) : List String → String
  | [] => ""
  | [x] => x
  | x :: y :: rest => x ++ sep ++ pyJoin sep (y :: rest)

/-- Python `s.replace(pat, rep)` on character lists, fuelled by the length of
the subject string: replace every non-overlapping occurrence of `pat`, left
to right. -/
def pyReplaceAux (pat rep : List Char) : ℕ → List Char → List Char
  | _, [] => []
  | 0, s => s
  | fuel + 1, c :: rest =>
    if pat.isPrefixOf (c :: rest) ∧ pat ≠ [] then
      rep ++ pyReplaceAux pat rep fuel ((c :: rest).drop pat.length)
    else c :: pyReplaceAux pat rep fuel rest

/-- Python `s.replace(pat, rep)` for a non-empty pattern. -/
def pyReplace (s pat rep : String) : String :=
  ⟨pyReplaceAux pat.data rep.data s.data.length s.data⟩

/-- schemas.py `FXRate` (pydantic, `use_enum_values`): currencies stored as
their string values, timestamps as `Nat` instants. -/
structure FXRate where
  base_currency : String
  quote_currency : String
  rate : ℚ
  source : String
  timestamp : Nat
deriving DecidableEq

/-- schemas.py `Currency`: the values of the supported-currency enum. -/
def supportedCurrencies : List String :=
  ["USD", "AED", "SAR", "KWD", "QAR", "GBP", "EUR", "JPY", "HKD"]

/-- Construction of an `FXRate`: pydantic coerces `base_currency` and
`quote_currency` to the `Currency` enum — an unknown code raises
`ValidationError` (the live path's explicit `Currency(...)` conversions
raise `ValueError` for the same condition; both are modelled as errors
here) — and validates `rate` with `gt=0`. -/
def mkFXRate (base quote : String) (rate : ℚ) (source : String) (ts : Nat) :
    Except String FXRate :=
  if base ∈ supportedCurrencies then
    if quote ∈ supportedCurrencies then
      if 0 < rate then .ok ⟨base, quote, rate, source, ts⟩
      else .error "ValidationError: rate must be greater than 0"
    else .error "ValidationError: quote_currency is not a valid Currency"
  else .error "ValidationError: base_currency is not a valid Currency"

/-- schemas.py `FXMode`. -/
inductive FXMode
  | live_spot
  | manual
  | average
deriving DecidableEq

/-- Average-mode rate table: a pandas DataFrame with an optional `date`
column (`none` when the frame has no such column) and named numeric columns
whose cells may be missing (`NaN`). -/
structure FXDataFrame where
  dates : Option (List Nat)
  cols : Dict (List (Option ℚ))

/-- schemas.py `FXConfiguration`.  `output_currency` holds the string value
of the configured `Currency` member. -/
structure FXConfiguration where
  mode : FXMode
  output_currency : String := "USD"
  manual_rates : Dict ℚ := []
  average_fx_data : Option FXDataFrame := none
  live_fx_source : String := "exchangerate.host"

/-- CPython renders `str(member)` of a `Currency(str, Enum)` member as
`"Currency.<name>"` (the `EnumMeta` machinery reinstalls `Enum.__str__` over
the `str` mixin's); every supported member's name equals its value. -/
def pyEnumStr (c : String) : String := "Currency." ++ c

/-- Outcome of one HTTP quote request, as the source discriminates it. -/
inductive ProviderResult
  | ok (val : ℚ)
  | httpFail
  | exn (msg : String)

/-- The two injected live-rate providers of fx.py `get_live_fx_rates`. -/
structure LiveProviders where
  primary : String → ProviderResult
  secondary : String → ProviderResult

/-- fx.py lines 84-90: hard-coded static rates for pegged GCC currencies. -/
def staticRates : Dict ℚ :=
  [("AED", 2723/10000), ("SAR", 2666/10000), ("KWD", 13/4),
   ("QAR", 2747/10000), ("HKD", 128/1000)]

/-- fx.py lines 56-67: the exchangerate.host attempt (made only when the
configured source is `"exchangerate.host"`; the `data.get("success") and
data.get("result")` truthiness check drops a parsed result of `0`).  Returns
the rate obtained, the error notices appended, and the currencies for which
a network request was attempted. -/
def primaryStep (P : LiveProviders) (source currency : String) :
    Option ℚ × List String × List String :=
  if source = "exchangerate.host" then
    match P.primary currency with
    | .ok v => (if v = 0 then none else some v, [], [currency])
    | .httpFail => (none, [], [currency])
    | .exn m =>
        (none, [currency ++ ": exchangerate.host failed - " ++ m], [currency])
  else (none, [], [])

/-- fx.py lines 69-80: the frankfurter.app fallback attempt, threading the
notices and fetch attempts accumulated so far. -/
def secondaryStep (P : LiveProviders) (currency : String)
    (errs fets : List String) : Option ℚ × List String × List String :=
  match P.secondary currency with
  | .ok v => (some v, errs, fets ++ [currency])
  | .httpFail => (none, errs, fets ++ [currency])
  | .exn m =>
      (none, errs ++ [currency ++ ": frankfurter.app failed - " ++ m],
       fets ++ [currency])

/-- fx.py lines 82-94: the static pegged-rate fallback. -/
def staticStep (currency : String) (errs fets : List String) :
    Option (ℚ × String) × List String × List String :=
  match dlookup staticRates currency with
  | some v =>
      (some (v, "static_pegged_rate"),
       errs ++ [currency ++ ": Using static pegged rate (live fetch failed)"],
       fets)
  | none => (none, errs, fets)

/-- fx.py lines 53-94, body of the per-currency loop for a currency other
than the quote currency: try the primary provider, then the secondary, then
the static pegged table; the first successful step fixes the rate and the
recorded source tag. -/
def liveTryCurrency (P : LiveProviders) (source currency : String) :
    Option (ℚ × String) × List String × List String :=
  match primaryStep P source currency with
  | (some v, errs, fets) => (some (v, source), errs, fets)
  | (none, errs, fets) =>
    match secondaryStep P currency errs fets with
    | (some v, errs', fets') =>
        (some (v, "ECB via frankfurter.app"), errs', fets')
    | (none, errs', fets') => staticStep currency errs' fets'

/-- fx.py lines 41-105: the `for currency in base_currencies` loop of
`get_live_fx_rates`, threading the `rates`, `errors` and fetch-trace
accumulators. -/
def liveLoop (P : LiveProviders) (source quote : String) (ts : Nat) :
    List String → Dict FXRate → List String → List String →
    Except String (Dict FXRate × List String × List String)
  | [], rates, errors, fetched => .ok (rates, errors, fetched)
  | currency :: rest, rates, errors, fetched =>
    if currency = quote then
      match mkFXRate currency quote 1 "identity" ts with
      | .error e => .error e
      | .ok fx =>
          liveLoop P source quote ts rest (dinsert rates currency fx)
            errors fetched
    else
      match liveTryCurrency P source currency with
      | (some (v, usedSource), errs, fets) =>
        match mkFXRate currency quote v usedSource ts with
        | .error e => .error e
        | .ok fx =>
            liveLoop P source quote ts rest (dinsert rates currency fx)
              (errors ++ errs) (fetched ++ fets)
      | (none, errs, fets) =>
          liveLoop P source quote ts rest rates
            (errors ++ errs ++ [currency ++ ": Could not retrieve rate"])
            (fetched ++ fets)

/-- fx.py `get_live_fx_rates`.  Besides the source's `(rates, status)` pair
the embedding returns the accumulated error notices and the fetch trace. -/
def get_live_fx_rates (P : LiveProviders) (base_currencies : List String)
    (quote_currency : String) (source : String) (ts : Nat) :
    Except String (Dict FXRate × String × List String × List String) :=
  match liveLoop P source quote_currency ts base_currencies [] [] [] with
  | .error e => .error e
  | .ok (rates, errors, fetched) =>
    .ok (rates,
      if errors.isEmpty then "All rates fetched successfully"
      else pyJoin "; " errors,
      errors, fetched)

/-- fx.py lines 146-156 helper: the values of column `vals` on the rows whose
date lies in the inclusive window, keeping only present (non-NaN) cells;
`filtered_df[col].mean()` is the arithmetic mean of exactly this list. -/
def inWindowPresent (dates : List Nat) (vals : List (Option ℚ))
    (start_date end_date : Nat) : List ℚ :=
  ((dates.zip vals).filter
    (fun p => start_date ≤ p.1 && p.1 ≤ end_date)).filterMap (·.2)

/-- fx.py lines 146-156: the `for col in currency_columns` loop, building the
`averages` dict and the `missing` column list. -/
def avgLoop (dates : List Nat) (start_date end_date : Nat)
    (cols : Dict (List (Option ℚ))) :
    List String → Dict ℚ → List String → Dict ℚ × List String
  | [], averages, missing => (averages, missing)
  | col :: rest, averages, missing =>
    match dlookup cols col with
    | some vals =>
      let present := inWindowPresent dates vals start_date end_date
      if present.length ≠ 0 then
        avgLoop dates start_date end_date cols rest
          (dinsert averages (pyReplace col "USD" "")
            (present.sum / present.length)) missing
      else
        avgLoop dates start_date end_date cols rest averages (missing ++ [col])
    | none =>
        avgLoop dates start_date end_date cols rest averages (missing ++ [col])

/-- fx.py `calculate_average_fx_from_df`.  Dates are already date ordinals,
so the `pd.to_datetime` normalisation is the identity here. -/
def calculate_average_fx_from_df (fx_df : FXDataFrame)
    (start_date end_date : Nat) (currency_columns : List String) :
    Dict ℚ × String :=
  match fx_df.dates with
  | none => ([], "Error: 'date' column not found in FX data")
  | some dates =>
    let inWindowRows :=
      dates.filter (fun d => start_date ≤ d && d ≤ end_date)
    if inWindowRows.isEmpty then
      ([], "No FX data found for date range " ++ toString start_date ++
        " to " ++ toString end_date)
    else
      let (averages, missing) :=
        avgLoop dates start_date end_date fx_df.cols currency_columns [] []
      let status := "Calculated averages from " ++
        toString inWindowRows.length ++ " days"
      let status :=
        if missing.isEmpty then status
        else status ++ "; Missing columns: " ++ pyJoin ", " missing
      (averages, status)

/-- fx.py lines 196-212: the manual-mode loop of `get_fx_rates`. -/
def manualLoop (output : String) (manual_rates : Dict ℚ) (ts : Nat) :
    List String → Dict FXRate → Except String (Dict FXRate)
  | [], rates => .ok rates
  | currency :: rest, rates =>
    if currency = output then
      match mkFXRate currency output 1 "identity" ts with
      | .error e => .error e
      | .ok fx => manualLoop output manual_rates ts rest (dinsert rates currency fx)
    else
      match dlookup manual_rates currency with
      | some r =>
        match mkFXRate currency output r "manual_entry" ts with
        | .error e => .error e
        | .ok fx => manualLoop output manual_rates ts rest (dinsert rates currency fx)
      | none => manualLoop output manual_rates ts rest rates

/-- fx.py lines 238-245: the loop turning averaged numbers into `FXRate`
records. -/
def avgRatesLoop (output src : String) (ts : Nat) :
    List (String × ℚ) → Dict FXRate → Except String (Dict FXRate)
  | [], rates => .ok rates
  | (currency, rate) :: rest, rates =>
    match mkFXRate currency output rate src ts with
    | .error e => .error e
    | .ok fx => avgRatesLoop output src ts rest (dinsert rates currency fx)

/-- fx.py `get_fx_rates`.  The live branch forwards to `get_live_fx_rates`
(dropping the instrumentation components before returning, as the source
returns only the `(rates, status)` pair). -/
def get_fx_rates (P : LiveProviders) (config : FXConfiguration)
    (required_currencies : List String) (date_range : Option (Nat × Nat))
    (ts : Nat) : Except String (Dict FXRate × String) :=
  match config.mode with
  | .live_spot =>
    match get_live_fx_rates P required_currencies
        config.output_currency config.live_fx_source ts with
    | .error e => .error e
    | .ok (rates, status, _, _) => .ok (rates, status)
  | .manual =>
    match manualLoop config.output_currency config.manual_rates ts
        required_currencies [] with
    | .error e => .error e
    | .ok rates =>
      let missing := required_currencies.filter (fun c => !(dhasKey rates c))
      let status :=
        if missing.isEmpty then "Manual rates applied"
        else "Missing manual rates for: " ++ pyJoin ", " missing
      .ok (rates, status)
  | .average =>
    match config.average_fx_data with
    | none => .ok ([], "No average FX data provided")
    | some fx_df =>
      match date_range with
      | none => .ok ([], "Date range required for average FX calculation")
      | some (sd, ed) =>
        let currency_columns :=
          (required_currencies.filter
            (fun c => c ≠ config.output_currency)).map (fun c => c ++ "USD")
        let (averages, status) :=
          calculate_average_fx_from_df fx_df sd ed currency_columns
        match avgRatesLoop config.output_currency
            ("average_" ++ toString sd ++ "_to_" ++ toString ed) ts averages [] with
        | .error e => .error e
        | .ok rates =>
          if required_currencies.contains config.output_currency then
            match mkFXRate config.output_currency config.output_currency 1
                "identity" ts with
            | .error e => .error e
            | .ok fx =>
                .ok (dinsert rates (pyEnumStr config.output_currency) fx, status)
          else .ok (rates, status)

/-- fx.py `convert_to_usd`. -/
def convert_to_usd (value : Option ℚ) (fx_rate : Option FXRate) : Option ℚ :=
  match value, fx_rate with
  | some v, some r => some (v * r.rate)
  | _, _ => none

/-- Round to the nearest integer, ties to even: the rounding CPython's
`format` applies when printing a float with a fixed number of decimals. -/
def roundHalfEven (q : ℚ) : ℤ :=
  let f : ℤ := ⌊q⌋
  let r : ℚ := q - f
  if r < 1/2 then f
  else if 1/2 < r then f + 1
  else if f % 2 = 0 then f else f + 1

/-- Two-digit zero padding of a value below 100. -/
def pad2 (n : ℕ) : String :=
  if n < 10 then "0" ++ toString n else toString n

/-- Rendering of a non-negative rational with exactly two decimal places. -/
def fmt2Core (q : ℚ) : String :=
  let m := (roundHalfEven (q * 100)).toNat
  toString (m / 100) ++ "." ++ pad2 (m % 100)

/-- Python `f"{q:.2f}"`. -/
def fmt2 (q : ℚ) : String :=
  if q < 0 then "-" ++ fmt2Core |q| else fmt2Core q

/-- Three-digit zero padding of a value below 1000. -/
def pad3 (n : ℕ) : String :=
  if n < 10 then "00" ++ toString n
  else if n < 100 then "0" ++ toString n
  else toString n

/-- Digit grouping of a natural number in threes with comma separators
(fuelled to stay structurally recursive). -/
def commaGroupsAux : ℕ → ℕ → String
  | 0, n => toString n
  | fuel + 1, n =>
    if n < 1000 then toString n
    else commaGroupsAux fuel (n / 1000) ++ "," ++ pad3 (n % 1000)

/-- Comma grouping of a natural number. -/
def commaGroups (n : ℕ) : String := commaGroupsAux n n

/-- Python `f"{q:,.0f}"`: round to an integer (ties to even), then group the
digits in threes with commas. -/
def fmtComma0 (q : ℚ) : String :=
  if q < 0 then "-" ++ commaGroups (roundHalfEven |q|).toNat
  else commaGroups (roundHalfEven q).toNat

/-- compute.py `format_market_cap`. -/
def format_market_cap (value : Option ℚ) (currency_symbol : String := "$") :
    String :=
  match value with
  | none => "N/A"
  | some v =>
    if v ≥ 1e12 then currency_symbol ++ fmt2 (v / 1e12) ++ "T"
    else if v ≥ 1e9 then currency_symbol ++ fmt2 (v / 1e9) ++ "B"
    else if v ≥ 1e6 then currency_symbol ++ fmt2 (v / 1e6) ++ "M"
    else currency_symbol ++ fmtComma0 v

/-- compute.py `format_adtv`. -/
def format_adtv (value : Option ℚ) (currency_symbol : String := "$") :
    String :=
  match value with
  | none => "N/A"
  | some v =>
    if v ≥ 1e9 then currency_symbol ++ fmt2 (v / 1e9) ++ "B"
    else if v ≥ 1e6 then currency_symbol ++ fmt2 (v / 1e6) ++ "M"
    else if v ≥ 1e3 then currency_symbol ++ fmt2 (v / 1e3) ++ "K"
    else currency_symbol ++ fmtComma0 v

/-- compute.py `format_percent`. -/
def format_percent (value : Option ℚ) : String :=
  match value with
  | none => "N/A"
  | some v =>
    let sign := if v ≥ 0 then "+" else ""
    sign ++ fmt2 v ++ "%"

/-- schemas.py `ExchangeInput` (pydantic, `use_enum_values`): the local
currency is stored as its string value. -/
structure ExchangeInput where
  region : String
  exchange : String
  index_name : String
  local_currency : String
  ytd_percent : Option ℚ := none
  market_cap_local : Option ℚ := none
  adtv_local : Option ℚ := none
  source : String := "manual"
  source_url : Option String := none
  source_timestamp : Option Nat := none

/-- schemas.py `ExchangeOutput`. -/
structure ExchangeOutput where
  region : String
  exchange : String
  index_name : String
  local_currency : String
  ytd_percent : Option ℚ
  ytd_percent_display : String
  market_cap_local : Option ℚ
  market_cap_usd : Option ℚ
  market_cap_usd_display : String
  adtv_local : Option ℚ
  adtv_usd : Option ℚ
  adtv_usd_display : String
  fx_rate_used : Option ℚ
  source : String
  source_url : Option String
  source_timestamp : Option Nat

/-- schemas.py `AuditRecord`. -/
structure AuditRecord where
  exchange : String
  input_local_currency : String
  input_market_cap : Option ℚ
  input_adtv : Option ℚ
  input_ytd_percent : Option ℚ
  fx_rate : Option ℚ
  fx_source : String
  output_market_cap_usd : Option ℚ
  output_adtv_usd : Option ℚ
  computed_at : Nat
  missing_fields : List String

/-- compute.py lines 121-130: the missing-field accumulation for one input
record, given the rate looked up for its currency. -/
def missingFieldsOf (inp : ExchangeInput) (fx_rate : Option FXRate) :
    List String :=
  let mf : List String := []
  let mf := if inp.ytd_percent = none then mf ++ ["ytd_percent"] else mf
  let mf := if inp.market_cap_local = none then mf ++ ["market_cap"] else mf
  let mf := if inp.adtv_local = none then mf ++ ["adtv"] else mf
  if fx_rate = none ∧ inp.local_currency ≠ "USD" then
    mf ++ ["fx_rate_" ++ inp.local_currency]
  else mf

/-- compute.py lines 113-166: the per-record body of the loop of
`compute_exchange_outputs`, producing the output record and the audit
record.  `now` stands for the `datetime.utcnow()` calls made while
processing the record. -/
def processInput (fx_rates : Dict FXRate) (now : Nat) (inp : ExchangeInput) :
    ExchangeOutput × AuditRecord :=
  let currency := inp.local_currency
  let fx_rate := dlookup fx_rates currency
  let market_cap_usd := convert_to_usd inp.market_cap_local fx_rate
  let adtv_usd := convert_to_usd inp.adtv_local fx_rate
  let missing_fields := missingFieldsOf inp fx_rate
  (⟨inp.region, inp.exchange, inp.index_name, currency,
    inp.ytd_percent, format_percent inp.ytd_percent,
    inp.market_cap_local, market_cap_usd, format_market_cap market_cap_usd,
    inp.adtv_local, adtv_usd, format_adtv adtv_usd,
    fx_rate.map (·.rate), inp.source, inp.source_url,
    some (match inp.source_timestamp with | some t => t | none => now)⟩,
   ⟨inp.exchange, currency, inp.market_cap_local, inp.adtv_local,
    inp.ytd_percent, fx_rate.map (·.rate),
    (match fx_rate with | some r => r.source | none => "N/A"),
    market_cap_usd, adtv_usd, now, missing_fields⟩)

/-- compute.py `compute_exchange_outputs`.  The source builds the required
currency list as `list(set(...))`, whose order CPython leaves unspecified;
`eraseDups` fixes the first-occurrence order, which no downstream lookup
depends on. -/
def compute_exchange_outputs (P : LiveProviders)
    (inputs : List ExchangeInput) (fx_config : FXConfiguration)
    (date_range : Nat × Nat) (now : Nat) :
    Except String
      (List ExchangeOutput × List AuditRecord × Dict FXRate × String) :=
  let required_currencies := (inputs.map (·.local_currency)).eraseDups
  match get_fx_rates P fx_config required_currencies (some date_range) now with
  | .error e => .error e
  | .ok (fx_rates, fx_status) =>
    let pairs := inputs.map (processInput fx_rates now)
    .ok (pairs.map (·.1), pairs.map (·.2), fx_rates, fx_status)

/-! ### Helper lemmas about the dict model -/

theorem dlookup_dinsert_self {α : Type} (m : Dict α) (k : String) (v : α) :
    dlookup (dinsert m k v) k = some v := by
  induction m with
  | nil => simp [dinsert, dlookup]
  | cons p rest ih =>
    by_cases h : p.1 = k
    · simp [dinsert, h, dlookup]
    · simp [dinsert, h, dlookup, ih]

theorem dlookup_dinsert_ne {α : Type} (m : Dict α) (k k' : String) (v : α)
    (hne : k ≠ k') : dlookup (dinsert m k v) k' = dlookup m k' := by
  induction m with
  | nil => simp [dinsert, dlookup, hne]
  | cons p rest ih =>
    by_cases h : p.1 = k
    · simp [dinsert, h, dlookup, hne]
    · simp [dinsert, h, dlookup, ih]

theorem dlookup_isSome_dinsert {α : Type} (m : Dict α) (k k' : String) (v : α)
    (h : (dlookup m k').isSome) : (dlookup (dinsert m k v) k').isSome := by
  by_cases hk : k = k'
  · subst hk; rw [dlookup_dinsert_self]; rfl
  · rwa [dlookup_dinsert_ne m k k' v hk]

theorem dlookup_mem {α : Type} (m : Dict α) (k : String) (v : α)
    (h : dlookup m k = some v) : (k, v) ∈ m := by
  induction m with
  | nil => simp [dlookup] at h
  | cons p rest ih =>
    by_cases hp : p.1 = k
    · rw [dlookup, if_pos hp] at h
      obtain ⟨rfl⟩ := h
      rw [show (k : String) = p.1 from hp.symm]
      exact List.mem_cons_self _ _
    · rw [dlookup, if_neg hp] at h
      exact List.mem_cons_of_mem _ (ih h)

theorem mem_dinsert {α : Type} (m : Dict α) (k : String) (v : α) :
    ∀ p ∈ dinsert m k v, p = (k, v) ∨ p ∈ m := by
  induction m with
  | nil => intro p hp; simp [dinsert] at hp; exact Or.inl hp
  | cons q rest ih =>
    intro p hp
    by_cases hq : q.1 = k
    · rw [dinsert, if_pos hq] at hp
      rcases List.mem_cons.mp hp with hp | hp
      · exact Or.inl hp
      · exact Or.inr (List.mem_cons_of_mem _ hp)
    · rw [dinsert, if_neg hq] at hp
      rcases List.mem_cons.mp hp with hp | hp
      · exact Or.inr (hp ▸ List.mem_cons_self _ _)
      · rcases ih p hp with hl | hl
        · exact Or.inl hl
        · exact Or.inr (List.mem_cons_of_mem _ hl)

/-- All rates of a rate table are positive numbers. -/
def ratesPos (m : Dict FXRate) : Prop := ∀ p ∈ m, 0 < p.2.rate

theorem ratesPos_dinsert {m : Dict FXRate} {k : String} {v : FXRate}
    (hm : ratesPos m) (hv : 0 < v.rate) : ratesPos (dinsert m k v) := by
  intro p hp
  rcases mem_dinsert m k v p hp with h | h
  · rw [h]; exact hv
  · exact hm p h

theorem mkFXRate_ok_rate {b q : String} {r : ℚ} {s : String} {t : Nat}
    {fx : FXRate} (h : mkFXRate b q r s t = .ok fx) : 0 < fx.rate := by
  unfold mkFXRate at h
  by_cases hb : b ∈ supportedCurrencies
  · rw [if_pos hb] at h
    by_cases hq : q ∈ supportedCurrencies
    · rw [if_pos hq] at h
      by_cases hr : 0 < r
      · rw [if_pos hr] at h
        obtain ⟨rfl⟩ := h
        exact hr
      · rw [if_neg hr] at h
        exact absurd h (by simp)
    · rw [if_neg hq] at h
      exact absurd h (by simp)
  · rw [if_neg hb] at h
    exact absurd h (by simp)

theorem mkFXRate_ok_eq {b q : String} {r : ℚ} (s : String) (t : Nat)
    (hb : b ∈ supportedCurrencies) (hq : q ∈ supportedCurrencies)
    (hr : 0 < r) : mkFXRate b q r s t = .ok ⟨b, q, r, s, t⟩ := by
  unfold mkFXRate
  rw [if_pos hb, if_pos hq, if_pos hr]

/-! ### Lemmas about the error notices of the live resolver -/

/-- The string contains a colon character (every per-currency notice of
`get_live_fx_rates` does, while its success sentinel does not). -/
abbrev containsColon (s : String) : Prop := ':' ∈ s.data

theorem containsColon_append_left {a : String} (b : String)
    (h : containsColon a) : containsColon (a ++ b) := by
  unfold containsColon at *
  rw [String.data_append]
  exact List.mem_append_left _ h

theorem containsColon_append_right (a : String) {b : String}
    (h : containsColon b) : containsColon (a ++ b) := by
  unfold containsColon at *
  rw [String.data_append]
  exact List.mem_append_right _ h

theorem pyJoin_containsColon (sep : String) (l : List String) (hne : l ≠ [])
    (h : ∀ e ∈ l, containsColon e) : containsColon (pyJoin sep l) := by
  match l with
  | [] => exact absurd rfl hne
  | [x] => exact h x (List.mem_singleton.2 rfl)
  | x :: y :: rest =>
    rw [pyJoin]
    exact containsColon_append_left _
      (containsColon_append_left _ (h x (List.mem_cons_self _ _)))

theorem containsColon_mid (a b m : String) (h : containsColon b) :
    containsColon (a ++ b ++ m) :=
  containsColon_append_left _ (containsColon_append_right a h)

theorem primaryStep_errs_colon (P : LiveProviders) (source c : String) :
    ∀ e ∈ (primaryStep P source c).2.1, containsColon e := by
  intro e he
  unfold primaryStep at he
  by_cases hs : source = "exchangerate.host" <;>
    simp only [hs, if_true, if_false, reduceIte] at he
  · rcases hp : P.primary c with v | _ | m <;> rw [hp] at he <;>
      simp only [] at he
    · by_cases hv : v = (0 : ℚ) <;> simp [hv] at he
    · simp at he
    · rw [List.mem_singleton] at he
      subst he
      exact containsColon_mid _ _ _ (by decide)
  · simp at he

theorem secondaryStep_errs_colon (P : LiveProviders) (c : String)
    (errs fets : List String) (h : ∀ e ∈ errs, containsColon e) :
    ∀ e ∈ (secondaryStep P c errs fets).2.1, containsColon e := by
  intro e he
  unfold secondaryStep at he
  rcases hq : P.secondary c with w | _ | m <;> rw [hq] at he <;>
    simp only [] at he
  · exact h e he
  · exact h e he
  · rcases List.mem_append.mp he with h' | h'
    · exact h e h'
    · rw [List.mem_singleton] at h'
      subst h'
      exact containsColon_mid _ _ _ (by decide)

theorem staticStep_errs_colon (c : String) (errs fets : List String)
    (h : ∀ e ∈ errs, containsColon e) :
    ∀ e ∈ (staticStep c errs fets).2.1, containsColon e := by
  intro e he
  unfold staticStep at he
  rcases hst : dlookup staticRates c with _ | r <;> rw [hst] at he <;>
    simp only [] at he
  · exact h e he
  · rcases List.mem_append.mp he with h' | h'
    · exact h e h'
    · rw [List.mem_singleton] at h'
      subst h'
      exact containsColon_append_right _ (by decide)

theorem liveTryCurrency_errs_colon (P : LiveProviders) (source c : String) :
    ∀ e ∈ (liveTryCurrency P source c).2.1, containsColon e := by
  intro e he
  unfold liveTryCurrency at he
  rcases hps : primaryStep P source c with ⟨ro, errs, fets⟩
  rw [hps] at he
  have hpe : ∀ e ∈ errs, containsColon e := by
    have := primaryStep_errs_colon P source c
    rw [hps] at this
    exact this
  cases ro with
  | some v => exact hpe e he
  | none =>
    simp only [] at he
    rcases hss : secondaryStep P c errs fets with ⟨ro2, errs2, fets2⟩
    rw [hss] at he
    have hse : ∀ e ∈ errs2, containsColon e := by
      have := secondaryStep_errs_colon P c errs fets hpe
      rw [hss] at this
      exact this
    cases ro2 with
    | some w => exact hse e he
    | none => exact staticStep_errs_colon c errs2 fets2 hse e he

/-- Master invariant of the `get_live_fx_rates` loop: notices only
accumulate, rate bindings are never removed, an error-free run resolved
every requested currency, positivity of the table is preserved, and every
accumulated notice contains a colon. -/
theorem liveLoop_ok_spec (P : LiveProviders) (source quote : String)
    (ts : Nat) (cs : List String) :
    ∀ (rates : Dict FXRate) (errors fetched : List String)
      (rates' : Dict FXRate) (errors' fetched' : List String),
    liveLoop P source quote ts cs rates errors fetched =
      .ok (rates', errors', fetched') →
    (∃ tail, errors' = errors ++ tail) ∧
    (∀ k, (dlookup rates k).isSome → (dlookup rates' k).isSome) ∧
    (errors' = [] → ∀ c ∈ cs, (dlookup rates' c).isSome) ∧
    (ratesPos rates → ratesPos rates') ∧
    ((∀ e ∈ errors, containsColon e) → ∀ e ∈ errors', containsColon e) := by
  induction cs with
  | nil =>
    intro rates errors fetched rates' errors' fetched' h
    rw [liveLoop] at h
    obtain ⟨rfl, rfl, rfl⟩ : rates = rates' ∧ errors = errors' ∧
        fetched = fetched' := by simpa using h
    refine ⟨⟨[], by simp⟩, fun k hk => hk, ?_, fun hp => hp, fun hc => hc⟩
    intro _ c hc
    exact absurd hc (List.not_mem_nil c)
  | cons c rest ih =>
    intro rates errors fetched rates' errors' fetched' h
    rw [liveLoop] at h
    by_cases hq : c = quote
    · rw [if_pos hq] at h
      cases hmk : mkFXRate c quote 1 "identity" ts with
      | error e =>
        rw [hmk] at h
        exact absurd h (by simp)
      | ok fx =>
        rw [hmk] at h
        simp only [] at h
        obtain ⟨hpre, hmono, hnoerr, hpos, hcolon⟩ := ih _ _ _ _ _ _ h
        refine ⟨hpre,
          fun k hk => hmono k (dlookup_isSome_dinsert _ _ _ _ hk), ?_, ?_,
          hcolon⟩
        · intro he c' hc'
          rcases List.mem_cons.mp hc' with rfl | hc'
          · exact hmono c' (by rw [dlookup_dinsert_self]; rfl)
          · exact hnoerr he c' hc'
        · intro hp
          exact hpos (ratesPos_dinsert hp (mkFXRate_ok_rate hmk))
    · rw [if_neg hq] at h
      rcases hT : liveTryCurrency P source c with ⟨ro, errs, fets⟩
      rw [hT] at h
      have herrs : ∀ e ∈ errs, containsColon e := by
        have := liveTryCurrency_errs_colon P source c
        rw [hT] at this
        exact this
      cases ro with
      | some p =>
        obtain ⟨v, us⟩ := p
        simp only [] at h
        cases hmk : mkFXRate c quote v us ts with
        | error e =>
          rw [hmk] at h
          exact absurd h (by simp)
        | ok fx =>
          rw [hmk] at h
          simp only [] at h
          obtain ⟨⟨tail, htail⟩, hmono, hnoerr, hpos, hcolon⟩ := ih _ _ _ _ _ _ h
          refine ⟨⟨errs ++ tail, by rw [htail, List.append_assoc]⟩,
            fun k hk => hmono k (dlookup_isSome_dinsert _ _ _ _ hk), ?_, ?_, ?_⟩
          · intro he c' hc'
            rcases List.mem_cons.mp hc' with rfl | hc'
            · exact hmono c' (by rw [dlookup_dinsert_self]; rfl)
            · exact hnoerr he c' hc'
          · intro hp
            exact hpos (ratesPos_dinsert hp (mkFXRate_ok_rate hmk))
          · intro hc
            refine hcolon ?_
            intro e' he'
            rcases List.mem_append.mp he' with h' | h'
            · exact hc e' h'
            · exact herrs e' h'
      | none =>
        simp only [] at h
        obtain ⟨⟨tail, htail⟩, hmono, hnoerr, hpos, hcolon⟩ := ih _ _ _ _ _ _ h
        have hnote : containsColon (c ++ ": Could not retrieve rate") :=
          containsColon_append_right _ (by decide)
        refine ⟨⟨errs ++ [c ++ ": Could not retrieve rate"] ++ tail, ?_⟩,
          hmono, ?_, hpos, ?_⟩
        · rw [htail]
          simp [List.append_assoc]
        · intro he
          exfalso
          rw [htail] at he
          rcases List.append_eq_nil.mp he with ⟨he1, -⟩
          rcases List.append_eq_nil.mp he1 with ⟨-, he2⟩
          exact List.cons_ne_nil _ _ he2
        · intro hc
          refine hcolon ?_
          intro e' he'
          rcases List.mem_append.mp he' with h' | h'
          · rcases List.mem_append.mp h' with h'' | h''
            · exact hc e' h''
            · exact herrs e' h''
          · rw [List.mem_singleton] at h'
            subst h'
            exact hnote

theorem manualLoop_ok_pos (output : String) (mr : Dict ℚ) (ts : Nat)
    (cs : List String) :
    ∀ (rates rates' : Dict FXRate),
    manualLoop output mr ts cs rates = .ok rates' →
    ratesPos rates → ratesPos rates' := by
  induction cs with
  | nil =>
    intro rates rates' h hp
    rw [manualLoop] at h
    obtain rfl : rates = rates' := by simpa using h
    exact hp
  | cons c rest ih =>
    intro rates rates' h hp
    rw [manualLoop] at h
    by_cases hq : c = output
    · rw [if_pos hq] at h
      cases hmk : mkFXRate c output 1 "identity" ts with
      | error e =>
        rw [hmk] at h
        exact absurd h (by simp)
      | ok fx =>
        rw [hmk] at h
        exact ih _ _ h (ratesPos_dinsert hp (mkFXRate_ok_rate hmk))
    · rw [if_neg hq] at h
      cases hm : dlookup mr c with
      | none =>
        rw [hm] at h
        exact ih _ _ h hp
      | some r =>
        rw [hm] at h
        simp only [] at h
        cases hmk : mkFXRate c output r "manual_entry" ts with
        | error e =>
          rw [hmk] at h
          exact absurd h (by simp)
        | ok fx =>
          rw [hmk] at h
          exact ih _ _ h (ratesPos_dinsert hp (mkFXRate_ok_rate hmk))

theorem manualLoop_total (output : String) (mr : Dict ℚ) (ts : Nat)
    (hout : output ∈ supportedCurrencies)
    (hmr : ∀ p ∈ mr, 0 < (p : String × ℚ).2) (cs : List String) :
    (∀ c ∈ cs, c ∈ supportedCurrencies) →
    ∀ rates : Dict FXRate,
    ∃ rates', manualLoop output mr ts cs rates = .ok rates' := by
  induction cs with
  | nil =>
    intro _ rates
    exact ⟨rates, rfl⟩
  | cons c rest ih =>
    intro hcs rates
    have hc : c ∈ supportedCurrencies := hcs c (List.mem_cons_self _ _)
    have hrest : ∀ c' ∈ rest, c' ∈ supportedCurrencies :=
      fun c' hc' => hcs c' (List.mem_cons_of_mem _ hc')
    rw [manualLoop]
    by_cases hq : c = output
    · rw [if_pos hq, mkFXRate_ok_eq "identity" ts hc hout (by norm_num)]
      simp only []
      exact ih hrest _
    · rw [if_neg hq]
      cases hm : dlookup mr c with
      | none =>
        simp only []
        exact ih hrest _
      | some r =>
        have hr : 0 < r := hmr (c, r) (dlookup_mem mr c r hm)
        simp only []
        rw [mkFXRate_ok_eq "manual_entry" ts hc hout hr]
        simp only []
        exact ih hrest _

theorem avgRatesLoop_ok_pos (output src : String) (ts : Nat)
    (l : List (String × ℚ)) :
    ∀ (rates rates' : Dict FXRate),
    avgRatesLoop output src ts l rates = .ok rates' →
    ratesPos rates → ratesPos rates' := by
  induction l with
  | nil =>
    intro rates rates' h hp
    rw [avgRatesLoop] at h
    obtain rfl : rates = rates' := by simpa using h
    exact hp
  | cons p rest ih =>
    intro rates rates' h hp
    obtain ⟨c, r⟩ := p
    rw [avgRatesLoop] at h
    cases hmk : mkFXRate c output r src ts with
    | error e =>
      rw [hmk] at h
      exact absurd h (by simp)
    | ok fx =>
      rw [hmk] at h
      exact ih _ _ h (ratesPos_dinsert hp (mkFXRate_ok_rate hmk))

/-! ### Lemmas about the average-mode loop -/

theorem isEmpty_false_of_length_ne_zero {α : Type} {l : List α}
    (h : l.length ≠ 0) : l.isEmpty = false := by
  cases l with
  | nil => simp at h
  | cons a as => rfl

theorem isEmpty_true_of_length_eq_zero {α : Type} {l : List α}
    (h : l.length = 0) : l.isEmpty = true := by
  cases l with
  | nil => rfl
  | cons a as => simp at h

/-- The present (non-NaN) in-window values of a named column, `[]` when the
column is absent from the frame. -/
def colPresent (dates : List Nat) (D : Dict (List (Option ℚ)))
    (sd ed : Nat) (col : String) : List ℚ :=
  match dlookup D col with
  | some vals => inWindowPresent dates vals sd ed
  | none => []

theorem avgLoop_missing (dates : List Nat) (sd ed : Nat)
    (D : Dict (List (Option ℚ))) :
    ∀ (cols : List String) (accA : Dict ℚ) (accM : List String),
    (avgLoop dates sd ed D cols accA accM).2 =
      accM ++ cols.filter (fun col => (colPresent dates D sd ed col).isEmpty) := by
  intro cols
  induction cols with
  | nil => intro accA accM; simp [avgLoop]
  | cons col rest ih =>
    intro accA accM
    rw [avgLoop]
    cases hD : dlookup D col with
    | none =>
      simp only []
      rw [ih]
      have hemp : (colPresent dates D sd ed col).isEmpty = true := by
        simp [colPresent, hD]
      rw [List.filter_cons, hemp]
      simp
    | some vals =>
      simp only []
      by_cases hp : (inWindowPresent dates vals sd ed).length ≠ 0
      · rw [if_pos hp, ih]
        have hemp : (colPresent dates D sd ed col).isEmpty = false := by
          simp only [colPresent, hD]
          exact isEmpty_false_of_length_ne_zero hp
        rw [List.filter_cons, hemp]
        simp
      · rw [if_neg hp, ih]
        have hemp : (colPresent dates D sd ed col).isEmpty = true := by
          simp only [colPresent, hD]
          exact isEmpty_true_of_length_eq_zero (by simpa using hp)
        rw [List.filter_cons, hemp]
        simp

theorem avgLoop_lookup_untouched (dates : List Nat) (sd ed : Nat)
    (D : Dict (List (Option ℚ))) :
    ∀ (cols : List String) (accA : Dict ℚ) (accM : List String) (key : String),
    key ∉ cols.map (fun c => pyReplace c "USD" "") →
    dlookup (avgLoop dates sd ed D cols accA accM).1 key = dlookup accA key := by
  intro cols
  induction cols with
  | nil => intro accA accM key _; rw [avgLoop]
  | cons col rest ih =>
    intro accA accM key hkey
    rw [List.map_cons] at hkey
    have hkey1 : pyReplace col "USD" "" ≠ key := by
      intro h
      exact hkey (h ▸ List.mem_cons_self _ _)
    have hkey2 : key ∉ rest.map (fun c => pyReplace c "USD" "") := by
      intro h
      exact hkey (List.mem_cons_of_mem _ h)
    rw [avgLoop]
    cases hD : dlookup D col with
    | none => exact ih _ _ _ hkey2
    | some vals =>
      simp only []
      by_cases hp : (inWindowPresent dates vals sd ed).length ≠ 0
      · rw [if_pos hp, ih _ _ _ hkey2, dlookup_dinsert_ne _ _ _ _ hkey1]
      · rw [if_neg hp]
        exact ih _ _ _ hkey2

theorem avgLoop_lookup (dates : List Nat) (sd ed : Nat)
    (D : Dict (List (Option ℚ))) :
    ∀ (cols : List String) (accA : Dict ℚ) (accM : List String) (col : String),
    col ∈ cols →
    (cols.map (fun c => pyReplace c "USD" "")).Nodup →
    dlookup accA (pyReplace col "USD" "") = none →
    dlookup (avgLoop dates sd ed D cols accA accM).1 (pyReplace col "USD" "") =
      (if (colPresent dates D sd ed col).isEmpty then none
       else some ((colPresent dates D sd ed col).sum /
          (colPresent dates D sd ed col).length)) := by
  intro cols
  induction cols with
  | nil =>
    intro accA accM col hmem
    exact absurd hmem (List.not_mem_nil col)
  | cons c' rest ih =>
    intro accA accM col hmem hnd hacc
    rw [List.map_cons, List.nodup_cons] at hnd
    obtain ⟨hhead, htail⟩ := hnd
    rcases List.mem_cons.mp hmem with rfl | hmem'
    · -- `col` is the head column: it is processed now and never touched again
      rw [avgLoop]
      cases hD : dlookup D col with
      | none =>
        simp only []
        rw [avgLoop_lookup_untouched dates sd ed D rest _ _ _ hhead, hacc]
        have : (colPresent dates D sd ed col).isEmpty = true := by
          simp [colPresent, hD]
        rw [if_pos this]
      | some vals =>
        simp only []
        by_cases hp : (inWindowPresent dates vals sd ed).length ≠ 0
        · rw [if_pos hp,
            avgLoop_lookup_untouched dates sd ed D rest _ _ _ hhead,
            dlookup_dinsert_self]
          have hne : (colPresent dates D sd ed col).isEmpty = false := by
            simp only [colPresent, hD]
            exact isEmpty_false_of_length_ne_zero hp
          rw [if_neg (by simp [hne])]
          simp only [colPresent, hD]
        · rw [if_neg hp,
            avgLoop_lookup_untouched dates sd ed D rest _ _ _ hhead, hacc]
          have hemp : (colPresent dates D sd ed col).isEmpty = true := by
            simp only [colPresent, hD]
            exact isEmpty_true_of_length_eq_zero (by simpa using hp)
          rw [if_pos hemp]
    · -- `col` is further down: the head step does not touch its key
      have hkeyne : pyReplace c' "USD" "" ≠ pyReplace col "USD" "" := by
        intro h
        exact hhead (h ▸ List.mem_map_of_mem _ hmem')
      rw [avgLoop]
      cases hD : dlookup D c' with
      | none => exact ih _ _ col hmem' htail hacc
      | some vals =>
        simp only []
        by_cases hp : (inWindowPresent dates vals sd ed).length ≠ 0
        · rw [if_pos hp]
          refine ih _ _ col hmem' htail ?_
          rw [dlookup_dinsert_ne _ _ _ _ hkeyne, hacc]
        · rw [if_neg hp]
          exact ih _ _ col hmem' htail hacc

theorem inWindowPresent_window_ne_nil (dates : List Nat)
    (vals : List (Option ℚ)) (sd ed : Nat)
    (h : inWindowPresent dates vals sd ed ≠ []) :
    dates.filter (fun d => sd ≤ d && d ≤ ed) ≠ [] := by
  obtain ⟨x, hx⟩ := List.exists_mem_of_ne_nil _ h
  unfold inWindowPresent at hx
  obtain ⟨p, hp, hpx⟩ := List.mem_filterMap.mp hx
  have hpz := List.mem_filter.mp hp
  have hd : p.1 ∈ dates := (List.of_mem_zip hpz.1).1
  exact List.ne_nil_of_mem (List.mem_filter.mpr ⟨hd, hpz.2⟩)

/-- Inversion of a successful `compute_exchange_outputs` run. -/
theorem compute_ok_inversion (P : LiveProviders) (inputs : List ExchangeInput)
    (cfg : FXConfiguration) (dr : Nat × Nat) (now : Nat)
    (outs : List ExchangeOutput) (audits : List AuditRecord)
    (rates : Dict FXRate) (status : String)
    (h : compute_exchange_outputs P inputs cfg dr now =
      .ok (outs, audits, rates, status)) :
    get_fx_rates P cfg ((inputs.map (·.local_currency)).eraseDups)
        (some dr) now = .ok (rates, status) ∧
    outs = (inputs.map (processInput rates now)).map (·.1) ∧
    audits = (inputs.map (processInput rates now)).map (·.2) := by
  unfold compute_exchange_outputs at h
  simp only [] at h
  cases hfx : get_fx_rates P cfg ((inputs.map (·.local_currency)).eraseDups)
      (some dr) now with
  | error e =>
    rw [hfx] at h
    exact absurd h (by simp)
  | ok pr =>
    obtain ⟨fr, fs⟩ := pr
    rw [hfx] at h
    simp only [Except.ok.injEq, Prod.mk.injEq] at h
    obtain ⟨h1, h2, h3, h4⟩ := h
    subst h1
    subst h2
    subst h3
    subst h4
    exact ⟨rfl, rfl, rfl⟩

/-! ### Fixtures used by the witnesses and counterexamples -/

/-- Providers whose every HTTP request fails with a non-200 response. -/
def bothFailProviders : LiveProviders :=
  ⟨fun _ => .httpFail, fun _ => .httpFail⟩

/-- Providers whose primary raises an exception while the secondary returns
a parsed rate of 3. -/
def exnThenOkProviders : LiveProviders :=
  ⟨fun _ => .exn "boom", fun _ => .ok 3⟩

/-- An AED-priced input record with every optional field absent. -/
def auditInput : ExchangeInput :=
  { region := "UAE", exchange := "DFM", index_name := "DFM General Index",
    local_currency := "AED" }

/-- A manual-mode configuration with an empty manual rate table. -/
def manualEmptyConfig : FXConfiguration := { mode := .manual }

/-- The output record produced for `auditInput` when no AED rate resolves. -/
def auditRunOut : ExchangeOutput :=
  ⟨"UAE", "DFM", "DFM General Index", "AED", none, "N/A", none, none, "N/A",
   none, none, "N/A", none, "manual", none, some 7⟩

/-- The audit record produced for `auditInput` when no AED rate resolves. -/
def auditRunAudit : AuditRecord :=
  ⟨"DFM", "AED", none, none, none, none, "N/A", none, none, 7,
   ["ytd_percent", "market_cap", "adtv", "fx_rate_AED"]⟩

/-! ### The claims -/

/-- Claim C1: in every FX mode a required currency equal to the configured
reporting currency should resolve to rate 1.0 with source `"identity"`
without any external fetch.  This holds in LiveSpot and Manual mode (first
two conjuncts: the rate table maps `"USD"` to the identity rate, and the
live fetch trace is empty), but in Average mode the identity rate is stored
under the key `str(Currency.USD) = "Currency.USD"`, so the returned table
has no entry for `"USD"` (last two conjuncts): the code slips on the
str-enum mangling and the downstream lookup by currency code misses the
identity rate. -/
theorem C1_identity_rate_resolution :
    (get_live_fx_rates bothFailProviders ["USD"] "USD" "exchangerate.host" 3 =
      .ok ([("USD", ⟨"USD", "USD", 1, "identity", 3⟩)],
        "All rates fetched successfully", [], [])) ∧
    (get_fx_rates bothFailProviders { mode := .manual } ["USD"] none 3 =
      .ok ([("USD", ⟨"USD", "USD", 1, "identity", 3⟩)],
        "Manual rates applied")) ∧
    (get_fx_rates bothFailProviders
        { mode := .average, average_fx_data := some ⟨some [1], []⟩ }
        ["USD"] (some (1, 1)) 3 =
      .ok ([("Currency.USD", ⟨"USD", "USD", 1, "identity", 3⟩)],
        "Calculated averages from 1 days")) ∧
    ((get_fx_rates bothFailProviders
        { mode := .average, average_fx_data := some ⟨some [1], []⟩ }
        ["USD"] (some (1, 1)) 3).toOption.map (fun r => dlookup r.1 "USD") =
      some none) :=
  ⟨rfl, rfl, rfl, rfl⟩

/-- Claim C2: `convert_to_usd` multiplies the value by the rate when both
are present, propagates absence (returning `none`, never `some 0`) when
either is absent, and is a total function. -/
theorem C2_convert_absence_propagation :
    (∀ (v : ℚ) (r : FXRate),
      convert_to_usd (some v) (some r) = some (v * r.rate)) ∧
    (∀ r : Option FXRate, convert_to_usd none r = none) ∧
    (∀ v : Option ℚ, convert_to_usd v none = none) ∧
    (∀ r : Option FXRate, convert_to_usd none r ≠ some 0) ∧
    (∀ v : Option ℚ, convert_to_usd v none ≠ some 0) := by
  refine ⟨fun v r => rfl, ?_, ?_, ?_, ?_⟩
  · intro r
    cases r <;> rfl
  · intro v
    cases v <;> rfl
  · intro r
    cases r <;> simp [convert_to_usd]
  · intro v
    cases v <;> simp [convert_to_usd]

/-- Claim C3: for every input record the audit record's missing-field list
is exactly, in this order: `"ytd_percent"` when YTD is absent,
`"market_cap"` when the local market cap is absent, `"adtv"` when the local
ADTV is absent, and `"fx_rate_<currency>"` when no rate was resolved and
the record's local currency is not the reporting currency — and nothing
else.  (The source compares against the literal `"USD"`, which equals the
configured reporting currency at every call site, hence the `hrc`
hypothesis.) -/
theorem C3_missing_fields_exact (P : LiveProviders)
    (inputs : List ExchangeInput) (cfg : FXConfiguration) (dr : Nat × Nat)
    (now : Nat) (outs : List ExchangeOutput) (audits : List AuditRecord)
    (rates : Dict FXRate) (status : String) (i : Nat) (inp : ExchangeInput)
    (a : AuditRecord)
    (h : compute_exchange_outputs P inputs cfg dr now =
      .ok (outs, audits, rates, status))
    (hrc : cfg.output_currency = "USD")
    (hin : inputs.get? i = some inp)
    (ha : audits.get? i = some a) :
    a.missing_fields =
      (if inp.ytd_percent = none then ["ytd_percent"] else []) ++
      (if inp.market_cap_local = none then ["market_cap"] else []) ++
      (if inp.adtv_local = none then ["adtv"] else []) ++
      (if dlookup rates inp.local_currency = none ∧
          inp.local_currency ≠ cfg.output_currency then
        ["fx_rate_" ++ inp.local_currency]
      else []) := by
  obtain ⟨-, -, haud⟩ := compute_ok_inversion P inputs cfg dr now outs audits
    rates status h
  subst haud
  rw [List.get?_map, List.get?_map, hin] at ha
  simp only [Option.map_some', Option.some.injEq] at ha
  subst ha
  rw [hrc]
  show missingFieldsOf inp (dlookup rates inp.local_currency) = _
  unfold missingFieldsOf
  split_ifs <;> simp_all

/-- Claim C10: `compute_exchange_outputs` copies every raw input field of a
record through unchanged, except that an absent source timestamp is replaced
by the computation time, so an output record never carries an absent source
timestamp. -/
theorem C10_source_timestamp_present (P : LiveProviders)
    (inputs : List ExchangeInput) (cfg : FXConfiguration) (dr : Nat × Nat)
    (now : Nat) (outs : List ExchangeOutput) (audits : List AuditRecord)
    (rates : Dict FXRate) (status : String) (i : Nat) (inp : ExchangeInput)
    (o : ExchangeOutput)
    (h : compute_exchange_outputs P inputs cfg dr now =
      .ok (outs, audits, rates, status))
    (hin : inputs.get? i = some inp)
    (ho : outs.get? i = some o) :
    o.source_timestamp.isSome = true ∧
    (inp.source_timestamp = none → o.source_timestamp = some now) ∧
    (∀ t, inp.source_timestamp = some t → o.source_timestamp = some t) ∧
    o.region = inp.region ∧
    o.exchange = inp.exchange ∧
    o.index_name = inp.index_name ∧
    o.local_currency = inp.local_currency ∧
    o.ytd_percent = inp.ytd_percent ∧
    o.market_cap_local = inp.market_cap_local ∧
    o.adtv_local = inp.adtv_local ∧
    o.source = inp.source ∧
    o.source_url = inp.source_url := by
  obtain ⟨-, houts, -⟩ := compute_ok_inversion P inputs cfg dr now outs audits
    rates status h
  subst houts
  rw [List.get?_map, List.get?_map, hin] at ho
  simp only [Option.map_some', Option.some.injEq] at ho
  subst ho
  refine ⟨?_, ?_, ?_, rfl, rfl, rfl, rfl, rfl, rfl, rfl, rfl, rfl⟩
  · cases hts : inp.source_timestamp <;> simp [processInput, hts]
  · intro hts
    simp [processInput, hts]
  · intro t hts
    simp [processInput, hts]

/-- Witness for C3 at a concrete run: an AED record with no optional fields
and no resolvable AED rate collects all four missing-field entries in
order. -/
theorem C3_missing_fields_exact_witness :
    compute_exchange_outputs bothFailProviders [auditInput] manualEmptyConfig
        (0, 0) 7 =
      .ok ([auditRunOut], [auditRunAudit], [], "Missing manual rates for: AED") ∧
    manualEmptyConfig.output_currency = "USD" ∧
    [auditInput].get? 0 = some auditInput ∧
    [auditRunAudit].get? 0 = some auditRunAudit ∧
    auditRunAudit.missing_fields =
      (if auditInput.ytd_percent = none then ["ytd_percent"] else []) ++
      (if auditInput.market_cap_local = none then ["market_cap"] else []) ++
      (if auditInput.adtv_local = none then ["adtv"] else []) ++
      (if dlookup ([] : Dict FXRate) auditInput.local_currency = none ∧
          auditInput.local_currency ≠ manualEmptyConfig.output_currency then
        ["fx_rate_" ++ auditInput.local_currency]
      else []) :=
  ⟨rfl, rfl, rfl, rfl,
    C3_missing_fields_exact bothFailProviders [auditInput] manualEmptyConfig
      (0, 0) 7 [auditRunOut] [auditRunAudit] [] "Missing manual rates for: AED"
      0 auditInput auditRunAudit rfl rfl rfl rfl⟩

/-- Witness for C10 at a concrete run: the input's source timestamp is
absent and the output record carries the computation time 7. -/
theorem C10_source_timestamp_present_witness :
    compute_exchange_outputs bothFailProviders [auditInput] manualEmptyConfig
        (0, 0) 7 =
      .ok ([auditRunOut], [auditRunAudit], [], "Missing manual rates for: AED") ∧
    auditInput.source_timestamp = none ∧
    auditRunOut.source_timestamp.isSome = true ∧
    auditRunOut.source_timestamp = some 7 ∧
    auditRunOut.region = auditInput.region ∧
    auditRunOut.ytd_percent = auditInput.ytd_percent :=
  ⟨rfl, rfl,
    (C10_source_timestamp_present bothFailProviders [auditInput]
      manualEmptyConfig (0, 0) 7 [auditRunOut] [auditRunAudit] []
      "Missing manual rates for: AED" 0 auditInput auditRunOut
      rfl rfl rfl).1,
    (C10_source_timestamp_present bothFailProviders [auditInput]
      manualEmptyConfig (0, 0) 7 [auditRunOut] [auditRunAudit] []
      "Missing manual rates for: AED" 0 auditInput auditRunOut
      rfl rfl rfl).2.1 rfl,
    (C10_source_timestamp_present bothFailProviders [auditInput]
      manualEmptyConfig (0, 0) 7 [auditRunOut] [auditRunAudit] []
      "Missing manual rates for: AED" 0 auditInput auditRunOut
      rfl rfl rfl).2.2.2.1,
    (C10_source_timestamp_present bothFailProviders [auditInput]
      manualEmptyConfig (0, 0) 7 [auditRunOut] [auditRunAudit] []
      "Missing manual rates for: AED" 0 auditInput auditRunOut
      rfl rfl rfl).2.2.2.2.2.2.2.1⟩

/-! ### Numeric rendering evaluation helpers -/

theorem roundHalfEven_natCast (n : ℕ) : roundHalfEven (n : ℚ) = n := by
  unfold roundHalfEven
  simp only [Int.floor_natCast]
  norm_num

theorem fmt2_eval (q : ℚ) (n : ℕ) (h0 : 0 ≤ q) (h : q * 100 = (n : ℚ)) :
    fmt2 q = toString (n / 100) ++ "." ++ pad2 (n % 100) := by
  unfold fmt2 fmt2Core
  rw [if_neg (not_lt.2 h0), h, roundHalfEven_natCast]
  simp

theorem fmtComma0_eval (q : ℚ) (n : ℕ) (h0 : 0 ≤ q) (h : q = (n : ℚ)) :
    fmtComma0 q = commaGroups n := by
  unfold fmtComma0
  rw [if_neg (not_lt.2 h0), h, roundHalfEven_natCast]
  simp

theorem format_market_cap_T (v : ℚ) (hv : v ≥ 1e12) :
    format_market_cap (some v) = "$" ++ fmt2 (v / 1e12) ++ "T" := by
  unfold format_market_cap
  simp only []
  rw [if_pos hv]

theorem format_market_cap_B (v : ℚ) (h1 : v ≥ 1e9) (h2 : v < 1e12) :
    format_market_cap (some v) = "$" ++ fmt2 (v / 1e9) ++ "B" := by
  unfold format_market_cap
  simp only []
  rw [if_neg (not_le.2 h2), if_pos h1]

theorem format_market_cap_M (v : ℚ) (h1 : v ≥ 1e6) (h2 : v < 1e9) :
    format_market_cap (some v) = "$" ++ fmt2 (v / 1e6) ++ "M" := by
  unfold format_market_cap
  simp only []
  rw [if_neg (not_le.2 (by linarith : v < (1e12 : ℚ))),
    if_neg (not_le.2 h2), if_pos h1]

theorem format_market_cap_low (v : ℚ) (hv : v < 1e6) :
    format_market_cap (some v) = "$" ++ fmtComma0 v := by
  unfold format_market_cap
  simp only []
  rw [if_neg (not_le.2 (by linarith : v < (1e12 : ℚ))),
    if_neg (not_le.2 (by linarith : v < (1e9 : ℚ))),
    if_neg (not_le.2 hv)]

theorem format_adtv_B (v : ℚ) (hv : v ≥ 1e9) :
    format_adtv (some v) = "$" ++ fmt2 (v / 1e9) ++ "B" := by
  unfold format_adtv
  simp only []
  rw [if_pos hv]

theorem format_adtv_M (v : ℚ) (h1 : v ≥ 1e6) (h2 : v < 1e9) :
    format_adtv (some v) = "$" ++ fmt2 (v / 1e6) ++ "M" := by
  unfold format_adtv
  simp only []
  rw [if_neg (not_le.2 h2), if_pos h1]

theorem format_adtv_K (v : ℚ) (h1 : v ≥ 1e3) (h2 : v < 1e6) :
    format_adtv (some v) = "$" ++ fmt2 (v / 1e3) ++ "K" := by
  unfold format_adtv
  simp only []
  rw [if_neg (not_le.2 (by linarith : v < (1e9 : ℚ))),
    if_neg (not_le.2 h2), if_pos h1]

theorem format_adtv_low (v : ℚ) (hv : v < 1e3) :
    format_adtv (some v) = "$" ++ fmtComma0 v := by
  unfold format_adtv
  simp only []
  rw [if_neg (not_le.2 (by linarith : v < (1e9 : ℚ))),
    if_neg (not_le.2 (by linarith : v < (1e6 : ℚ))),
    if_neg (not_le.2 hv)]

/-- Claim C4: the three display formatters follow the fixed magnitude
thresholds (T at 10^12, B at 10^9, M at 10^6, plus K at 10^3 for ADTV only),
render below-threshold values with thousands separators and no decimals,
render the spec's examples exactly as stated, and render an absent value as
the literal `"N/A"` in all three formatters. -/
theorem C4_formatter_thresholds :
    (∀ v : ℚ, v ≥ 1e12 →
      format_market_cap (some v) = "$" ++ fmt2 (v / 1e12) ++ "T") ∧
    (∀ v : ℚ, v ≥ 1e9 → v < 1e12 →
      format_market_cap (some v) = "$" ++ fmt2 (v / 1e9) ++ "B") ∧
    (∀ v : ℚ, v ≥ 1e6 → v < 1e9 →
      format_market_cap (some v) = "$" ++ fmt2 (v / 1e6) ++ "M") ∧
    (∀ v : ℚ, v < 1e6 → format_market_cap (some v) = "$" ++ fmtComma0 v) ∧
    (∀ v : ℚ, v ≥ 1e9 → format_adtv (some v) = "$" ++ fmt2 (v / 1e9) ++ "B") ∧
    (∀ v : ℚ, v ≥ 1e6 → v < 1e9 →
      format_adtv (some v) = "$" ++ fmt2 (v / 1e6) ++ "M") ∧
    (∀ v : ℚ, v ≥ 1e3 → v < 1e6 →
      format_adtv (some v) = "$" ++ fmt2 (v / 1e3) ++ "K") ∧
    (∀ v : ℚ, v < 1e3 → format_adtv (some v) = "$" ++ fmtComma0 v) ∧
    format_market_cap (some 2300000000000) = "$2.30T" ∧
    format_market_cap (some 1500000000) = "$1.50B" ∧
    format_market_cap (some 999) = "$999" ∧
    format_adtv (some 2500) = "$2.50K" ∧
    format_market_cap none = "N/A" ∧
    format_adtv none = "N/A" ∧
    format_percent none = "N/A" := by
  refine ⟨format_market_cap_T, format_market_cap_B, format_market_cap_M,
    format_market_cap_low, format_adtv_B, format_adtv_M, format_adtv_K,
    format_adtv_low, ?_, ?_, ?_, ?_, rfl, rfl, rfl⟩
  · rw [format_market_cap_T 2300000000000 (by norm_num),
      fmt2_eval _ 230 (by norm_num) (by norm_num)]
    decide
  · rw [format_market_cap_B 1500000000 (by norm_num) (by norm_num),
      fmt2_eval _ 150 (by norm_num) (by norm_num)]
    decide
  · rw [format_market_cap_low 999 (by norm_num),
      fmtComma0_eval _ 999 (by norm_num) (by norm_num)]
    decide
  · rw [format_adtv_K 2500 (by norm_num) (by norm_num),
      fmt2_eval _ 250 (by norm_num) (by norm_num)]
    decide

/-- Witness for C4: the threshold conjuncts applied at the spec's example
inputs, with the hypotheses discharged concretely. -/
theorem C4_formatter_thresholds_witness :
    ((2300000000000 : ℚ) ≥ 1e12 ∧
      format_market_cap (some 2300000000000) =
        "$" ++ fmt2 ((2300000000000 : ℚ) / 1e12) ++ "T") ∧
    ((2500 : ℚ) ≥ 1e3 ∧ (2500 : ℚ) < 1e6 ∧
      format_adtv (some 2500) = "$" ++ fmt2 ((2500 : ℚ) / 1e3) ++ "K") :=
  ⟨⟨by norm_num, C4_formatter_thresholds.1 2300000000000 (by norm_num)⟩,
   ⟨by norm_num, by norm_num,
    C4_formatter_thresholds.2.2.2.2.2.2.1 2500 (by norm_num) (by norm_num)⟩⟩

/-- Specification of a successful `get_live_fx_rates` call, at the top-level
invocation with empty accumulators. -/
theorem get_live_fx_rates_ok_spec (P : LiveProviders) (cs : List String)
    (quote src : String) (ts : Nat) (rates : Dict FXRate) (status : String)
    (errors fetched : List String)
    (h : get_live_fx_rates P cs quote src ts =
      .ok (rates, status, errors, fetched)) :
    (status = "All rates fetched successfully" ↔ errors = []) ∧
    (errors = [] → ∀ c ∈ cs, (dlookup rates c).isSome) ∧
    ratesPos rates ∧
    (∀ e ∈ errors, containsColon e) ∧
    status = (if errors.isEmpty then "All rates fetched successfully"
      else pyJoin "; " errors) := by
  unfold get_live_fx_rates at h
  cases hL : liveLoop P src quote ts cs [] [] [] with
  | error e =>
    rw [hL] at h
    exact absurd h (by simp)
  | ok tr =>
    obtain ⟨r0, e0, f0⟩ := tr
    rw [hL] at h
    simp only [Except.ok.injEq, Prod.mk.injEq] at h
    obtain ⟨h1, h2, h3, h4⟩ := h
    subst h1
    subst h3
    subst h4
    obtain ⟨-, -, hnoerr, hpos, hcolon⟩ :=
      liveLoop_ok_spec P src quote ts cs [] [] [] r0 e0 f0 hL
    have hcolall : ∀ e ∈ e0, containsColon e :=
      hcolon (fun e h'' => absurd h'' (List.not_mem_nil e))
    have hposall : ratesPos r0 :=
      hpos (fun p hp => absurd hp (List.not_mem_nil p))
    refine ⟨?_, hnoerr, hposall, hcolall, h2.symm⟩
    constructor
    · intro hs
      by_cases he : e0 = []
      · exact he
      · exfalso
        have hf : e0.isEmpty = false :=
          isEmpty_false_of_length_ne_zero (by
            intro hlen
            exact he (List.length_eq_zero.mp hlen))
        rw [← h2, hf] at hs
        simp only [Bool.false_eq_true, if_false] at hs
        have hcol : containsColon (pyJoin "; " e0) :=
          pyJoin_containsColon _ _ he hcolall
        rw [hs] at hcol
        exact absurd hcol (by decide)
    · intro he
      rw [← h2, he]
      rfl

/-- Counterexample to C6 as stated: the primary provider raises an
exception for KWD while the secondary succeeds, so every requested currency
produced a rate, yet the status is the per-currency notice, not the success
sentinel — "every currency produced a rate" does not imply the sentinel. -/
theorem C6_sentinel_counterexample :
    get_live_fx_rates exnThenOkProviders ["KWD"] "USD" "exchangerate.host" 0 =
      .ok ([("KWD", ⟨"KWD", "USD", 3, "ECB via frankfurter.app", 0⟩)],
        "KWD: exchangerate.host failed - boom",
        ["KWD: exchangerate.host failed - boom"], ["KWD", "KWD"]) ∧
    (∀ c ∈ ["KWD"],
      (dlookup [("KWD",
        (⟨"KWD", "USD", 3, "ECB via frankfurter.app", 0⟩ : FXRate))] c).isSome) ∧
    "KWD: exchangerate.host failed - boom" ≠ "All rates fetched successfully" := by
  refine ⟨rfl, ?_, by decide⟩
  intro c hc
  rw [List.mem_singleton] at hc
  subst hc
  rfl

/-- Claim C6 (amended): the final status of `get_live_fx_rates` is the
single success sentinel exactly when no per-currency failure or fallback
notice was recorded; an error-free run implies every requested currency
produced a rate, but the converse of the claim fails (a provider exception
or a static-peg fallback leaves a notice even when every currency obtained
a rate), and with notices present the status is their semicolon join. -/
theorem C6_status_sentinel_amended (P : LiveProviders) (cs : List String)
    (quote src : String) (ts : Nat) (rates : Dict FXRate) (status : String)
    (errors fetched : List String)
    (h : get_live_fx_rates P cs quote src ts =
      .ok (rates, status, errors, fetched)) :
    (status = "All rates fetched successfully" ↔ errors = []) ∧
    (errors = [] → ∀ c ∈ cs, (dlookup rates c).isSome) ∧
    (errors ≠ [] → status = pyJoin "; " errors) := by
  obtain ⟨hiff, hall, -, -, hstat⟩ :=
    get_live_fx_rates_ok_spec P cs quote src ts rates status errors fetched h
  refine ⟨hiff, hall, ?_⟩
  intro hne
  rw [hstat, isEmpty_false_of_length_ne_zero (by
    intro hlen
    exact hne (List.length_eq_zero.mp hlen))]
  simp

/-- Witness for C6 (amended) at a run that fetches only the reporting
currency: no notice is recorded, the status is the sentinel, and the single
requested currency resolved. -/
theorem C6_status_sentinel_amended_witness :
    (("All rates fetched successfully" = "All rates fetched successfully") ↔
      (([] : List String) = [])) ∧
    (([] : List String) = [] → ∀ c ∈ ["USD"],
      (dlookup [("USD",
        (⟨"USD", "USD", 1, "identity", 0⟩ : FXRate))] c).isSome) ∧
    (([] : List String) ≠ [] →
      "All rates fetched successfully" = pyJoin "; " []) :=
  C6_status_sentinel_amended bothFailProviders ["USD"] "USD"
    "exchangerate.host" 0 [("USD", ⟨"USD", "USD", 1, "identity", 0⟩)]
    "All rates fetched successfully" [] [] rfl

/-- Positivity of every rate in a successfully returned table, for every
mode of `get_fx_rates`. -/
theorem get_fx_rates_ok_pos (P : LiveProviders) (cfg : FXConfiguration)
    (req : List String) (dr : Option (Nat × Nat)) (ts : Nat)
    (rates : Dict FXRate) (status : String)
    (h : get_fx_rates P cfg req dr ts = .ok (rates, status)) :
    ratesPos rates := by
  unfold get_fx_rates at h
  cases hmode : cfg.mode with
  | live_spot =>
    rw [hmode] at h
    simp only [] at h
    cases hg : get_live_fx_rates P req cfg.output_currency cfg.live_fx_source
        ts with
    | error e =>
      rw [hg] at h
      exact absurd h (by simp)
    | ok tr =>
      obtain ⟨r0, s0, e0, f0⟩ := tr
      rw [hg] at h
      simp only [Except.ok.injEq, Prod.mk.injEq] at h
      obtain ⟨rfl, -⟩ := h
      exact (get_live_fx_rates_ok_spec P req cfg.output_currency
        cfg.live_fx_source ts r0 s0 e0 f0 hg).2.2.1
  | manual =>
    rw [hmode] at h
    simp only [] at h
    cases hm : manualLoop cfg.output_currency cfg.manual_rates ts req [] with
    | error e =>
      rw [hm] at h
      exact absurd h (by simp)
    | ok r0 =>
      rw [hm] at h
      simp only [Except.ok.injEq, Prod.mk.injEq] at h
      obtain ⟨rfl, -⟩ := h
      exact manualLoop_ok_pos cfg.output_currency cfg.manual_rates ts req []
        r0 hm (fun p hp => absurd hp (List.not_mem_nil p))
  | average =>
    rw [hmode] at h
    simp only [] at h
    cases hdata : cfg.average_fx_data with
    | none =>
      rw [hdata] at h
      simp only [Except.ok.injEq, Prod.mk.injEq] at h
      obtain ⟨rfl, -⟩ := h
      exact fun p hp => absurd hp (List.not_mem_nil p)
    | some df =>
      rw [hdata] at h
      simp only [] at h
      cases dr with
      | none =>
        simp only [Except.ok.injEq, Prod.mk.injEq] at h
        obtain ⟨rfl, -⟩ := h
        exact fun p hp => absurd hp (List.not_mem_nil p)
      | some pr =>
        obtain ⟨sd, ed⟩ := pr
        simp only [] at h
        cases ha : avgRatesLoop cfg.output_currency
            ("average_" ++ toString sd ++ "_to_" ++ toString ed) ts
            (calculate_average_fx_from_df df sd ed
              ((req.filter (fun c => c ≠ cfg.output_currency)).map
                (fun c => c ++ "USD"))).1 [] with
        | error e =>
          rw [ha] at h
          exact absurd h (by simp)
        | ok r0 =>
          rw [ha] at h
          simp only [] at h
          have hp0 : ratesPos r0 :=
            avgRatesLoop_ok_pos _ _ _ _ [] r0 ha
              (fun p hp => absurd hp (List.not_mem_nil p))
          by_cases hm : req.contains cfg.output_currency
          · rw [if_pos hm] at h
            cases hmk : mkFXRate cfg.output_currency cfg.output_currency 1
                "identity" ts with
            | error e =>
              rw [hmk] at h
              exact absurd h (by simp)
            | ok fx =>
              rw [hmk] at h
              simp only [Except.ok.injEq, Prod.mk.injEq] at h
              obtain ⟨rfl, -⟩ := h
              exact ratesPos_dinsert hp0 (mkFXRate_ok_rate hmk)
          · rw [if_neg hm] at h
            simp only [Except.ok.injEq, Prod.mk.injEq] at h
            obtain ⟨rfl, -⟩ := h
            exact hp0

/-- Counterexample to C8 as stated: the resolver is not total over every
configuration — a manual configuration carrying a non-positive rate makes
the `FXRate` construction raise pydantic's ValidationError past the
resolver boundary instead of returning a rate map and a status string. -/
theorem C8_resolver_raises_counterexample :
    get_fx_rates bothFailProviders
      { mode := .manual, manual_rates := [("AED", 0)] } ["AED"] none 0 =
      .error "ValidationError: rate must be greater than 0" := rfl

/-- Claim C8 (amended): the two Average-mode configuration errors (absent
payload, absent date range) return an empty table plus a descriptive status
without raising; every rate in any successfully returned table is positive;
the resolver is total whenever the configured rates pass `FXRate`'s
validation — positive rates and currency codes from the supported `Currency`
enum (shown for Manual mode, whose configured data flows into `FXRate`
construction unguarded); and a configured currency code outside the enum
raises ValidationError despite a positive rate (last conjunct). -/
theorem C8_resolver_totality_amended :
    (∀ (P : LiveProviders) (cfg : FXConfiguration) (req : List String)
        (dr : Option (Nat × Nat)) (ts : Nat),
      cfg.mode = .average → cfg.average_fx_data = none →
      get_fx_rates P cfg req dr ts = .ok ([], "No average FX data provided")) ∧
    (∀ (P : LiveProviders) (cfg : FXConfiguration) (req : List String)
        (ts : Nat) (df : FXDataFrame),
      cfg.mode = .average → cfg.average_fx_data = some df →
      get_fx_rates P cfg req none ts =
        .ok ([], "Date range required for average FX calculation")) ∧
    (∀ (P : LiveProviders) (cfg : FXConfiguration) (req : List String)
        (dr : Option (Nat × Nat)) (ts : Nat) (rates : Dict FXRate)
        (status : String),
      get_fx_rates P cfg req dr ts = .ok (rates, status) →
      ∀ p ∈ rates, 0 < p.2.rate) ∧
    (∀ (P : LiveProviders) (cfg : FXConfiguration) (req : List String)
        (dr : Option (Nat × Nat)) (ts : Nat),
      cfg.mode = .manual →
      cfg.output_currency ∈ supportedCurrencies →
      (∀ c ∈ req, c ∈ supportedCurrencies) →
      (∀ p ∈ cfg.manual_rates, 0 < (p : String × ℚ).2) →
      ∃ res, get_fx_rates P cfg req dr ts = .ok res) ∧
    (get_fx_rates bothFailProviders
      { mode := .manual, manual_rates := [("XYZ", 3)] } ["XYZ"] none 0 =
      .error "ValidationError: base_currency is not a valid Currency") := by
  refine ⟨?_, ?_, ?_, ?_, rfl⟩
  · intro P cfg req dr ts hmode hdata
    unfold get_fx_rates
    rw [hmode]
    simp only []
    rw [hdata]
  · intro P cfg req ts df hmode hdata
    unfold get_fx_rates
    rw [hmode]
    simp only []
    rw [hdata]
  · intro P cfg req dr ts rates status h
    exact get_fx_rates_ok_pos P cfg req dr ts rates status h
  · intro P cfg req dr ts hmode hout hreq hmr
    unfold get_fx_rates
    rw [hmode]
    simp only []
    obtain ⟨r0, hr0⟩ :=
      manualLoop_total cfg.output_currency cfg.manual_rates ts hout hmr req
        hreq []
    rw [hr0]
    exact ⟨_, rfl⟩

/-- Witness for C8 (amended): the Average-mode configuration errors, the
positivity of a concretely returned table, and Manual-mode totality, each at
a concrete input. -/
theorem C8_resolver_totality_amended_witness :
    (get_fx_rates bothFailProviders { mode := .average } ["USD"]
        (some (0, 0)) 0 = .ok ([], "No average FX data provided")) ∧
    (get_fx_rates bothFailProviders
        { mode := .average, average_fx_data := some ⟨some [1], []⟩ }
        ["USD"] none 0 =
      .ok ([], "Date range required for average FX calculation")) ∧
    (∀ p ∈ ([("USD", (⟨"USD", "USD", 1, "identity", 0⟩ : FXRate))] :
        Dict FXRate), 0 < p.2.rate) ∧
    (∃ res, get_fx_rates bothFailProviders
      { mode := .manual, manual_rates := [("AED", 3)] } ["AED"] none 0 =
        .ok res) :=
  ⟨C8_resolver_totality_amended.1 bothFailProviders { mode := .average }
      ["USD"] (some (0, 0)) 0 rfl rfl,
   C8_resolver_totality_amended.2.1 bothFailProviders
      { mode := .average, average_fx_data := some ⟨some [1], []⟩ }
      ["USD"] 0 ⟨some [1], []⟩ rfl rfl,
   C8_resolver_totality_amended.2.2.1 bothFailProviders { mode := .manual }
      ["USD"] none 0 [("USD", ⟨"USD", "USD", 1, "identity", 0⟩)]
      "Manual rates applied" rfl,
   C8_resolver_totality_amended.2.2.2.1 bothFailProviders
      { mode := .manual, manual_rates := [("AED", 3)] } ["AED"] none 0 rfl
      (by decide) (by decide)
      (by
        intro p hp
        rw [List.mem_singleton] at hp
        subst hp
        norm_num)⟩

theorem convert_to_usd_none_right (v : Option ℚ) :
    convert_to_usd v none = none := by
  cases v <;> rfl

theorem primaryStep_none (P : LiveProviders) (source c : String)
    (hp : ∀ v, P.primary c ≠ .ok v) : (primaryStep P source c).1 = none := by
  unfold primaryStep
  by_cases hsrc : source = "exchangerate.host"
  · rw [if_pos hsrc]
    cases hpp : P.primary c with
    | ok v => exact absurd hpp (hp v)
    | httpFail => rfl
    | exn m => rfl
  · rw [if_neg hsrc]

theorem secondaryStep_none (P : LiveProviders) (c : String)
    (errs fets : List String) (hs : ∀ v, P.secondary c ≠ .ok v) :
    (secondaryStep P c errs fets).1 = none := by
  unfold secondaryStep
  cases hss : P.secondary c with
  | ok v => exact absurd hss (hs v)
  | httpFail => rfl
  | exn m => rfl

theorem liveTryCurrency_none (P : LiveProviders) (source c : String)
    (hp : ∀ v, P.primary c ≠ .ok v) (hs : ∀ v, P.secondary c ≠ .ok v)
    (hstatic : dlookup staticRates c = none) :
    (liveTryCurrency P source c).1 = none := by
  unfold liveTryCurrency
  rcases hps : primaryStep P source c with ⟨ro, errs, fets⟩
  have hro : ro = none := by
    have := primaryStep_none P source c hp
    rw [hps] at this
    exact this
  subst hro
  simp only []
  rcases hss : secondaryStep P c errs fets with ⟨ro2, errs2, fets2⟩
  have hro2 : ro2 = none := by
    have := secondaryStep_none P c errs fets hs
    rw [hss] at this
    exact this
  subst hro2
  simp only []
  unfold staticStep
  rw [hstatic]

/-- A GBP-priced input record with every optional field absent. -/
def gbpInput : ExchangeInput :=
  { region := "UK", exchange := "LSE", index_name := "FTSE 100",
    local_currency := "GBP" }

/-- The default LiveSpot configuration (USD reporting currency,
exchangerate.host primary source). -/
def liveDefaultConfig : FXConfiguration := { mode := .live_spot }

/-- A KWD-priced input record with a present local market cap. -/
def kwdInput : ExchangeInput :=
  { region := "Kuwait", exchange := "Boursa Kuwait",
    index_name := "Premier Market Index", local_currency := "KWD",
    market_cap_local := some 4 }

/-- Counterexample to C5 as stated: KWD belongs to the code's static pegged
fallback set, so when both live providers fail the resolver does not omit
KWD — it returns the static rate 3.25 with source `"static_pegged_rate"`, a
fallback (not failure) notice, and a KWD record's converted value stays
present, with no `"fx_rate_KWD"` in the missing-field list. -/
theorem C5_kwd_static_counterexample :
    (get_live_fx_rates bothFailProviders ["KWD"] "USD" "exchangerate.host" 0 =
      .ok ([("KWD", ⟨"KWD", "USD", 13/4, "static_pegged_rate", 0⟩)],
        "KWD: Using static pegged rate (live fetch failed)",
        ["KWD: Using static pegged rate (live fetch failed)"],
        ["KWD", "KWD"])) ∧
    (dlookup [("KWD",
      (⟨"KWD", "USD", 13/4, "static_pegged_rate", 0⟩ : FXRate))]
        "KWD").isSome = true ∧
    (convert_to_usd kwdInput.market_cap_local
      (some ⟨"KWD", "USD", 13/4, "static_pegged_rate", 0⟩)).isSome = true ∧
    "fx_rate_KWD" ∉ missingFieldsOf kwdInput
      (some ⟨"KWD", "USD", 13/4, "static_pegged_rate", 0⟩) := by
  refine ⟨?_, rfl, rfl, by decide⟩
  norm_num +decide [get_live_fx_rates, liveLoop, liveTryCurrency,
    primaryStep, secondaryStep, staticStep, bothFailProviders, staticRates,
    dlookup, dinsert, mkFXRate, pyJoin]

/-- Claim C5 (amended): in LiveSpot mode, when both live providers fail for
a currency that is NOT in the static pegged fallback set (KWD itself is in
that set and instead falls back to the static rate 3.25, as the
counterexample shows), the currency is omitted from the rate table, the
status is the semicolon join of the notices among which is the
currency-specific failure note, and a record priced in that currency gets
absent converted fields with `"fx_rate_<currency>"` in its audit
missing-field list. -/
theorem C5_unpegged_failure_amended (P : LiveProviders)
    (cfg : FXConfiguration) (inp : ExchangeInput) (dr : Nat × Nat) (now : Nat)
    (outs : List ExchangeOutput) (audits : List AuditRecord)
    (rates : Dict FXRate) (status : String)
    (hmode : cfg.mode = .live_spot)
    (hcq : inp.local_currency ≠ cfg.output_currency)
    (hcu : inp.local_currency ≠ "USD")
    (hp : ∀ v, P.primary inp.local_currency ≠ .ok v)
    (hs : ∀ v, P.secondary inp.local_currency ≠ .ok v)
    (hstatic : dlookup staticRates inp.local_currency = none)
    (h : compute_exchange_outputs P [inp] cfg dr now =
      .ok (outs, audits, rates, status)) :
    dlookup rates inp.local_currency = none ∧
    status = pyJoin "; "
      ((liveTryCurrency P cfg.live_fx_source inp.local_currency).2.1 ++
        [inp.local_currency ++ ": Could not retrieve rate"]) ∧
    (inp.local_currency ++ ": Could not retrieve rate") ∈
      ((liveTryCurrency P cfg.live_fx_source inp.local_currency).2.1 ++
        [inp.local_currency ++ ": Could not retrieve rate"]) ∧
    outs.map (·.market_cap_usd) = [none] ∧
    outs.map (·.adtv_usd) = [none] ∧
    ∀ a ∈ audits, ("fx_rate_" ++ inp.local_currency) ∈ a.missing_fields := by
  obtain ⟨hfx, houts, hauds⟩ := compute_ok_inversion P [inp] cfg dr now outs
    audits rates status h
  rcases hT : liveTryCurrency P cfg.live_fx_source inp.local_currency
    with ⟨ro, errs, fets⟩
  have hro : ro = none := by
    have := liveTryCurrency_none P cfg.live_fx_source inp.local_currency
      hp hs hstatic
    rw [hT] at this
    exact this
  subst hro
  have hrun : liveLoop P cfg.live_fx_source cfg.output_currency now
      [inp.local_currency] [] [] [] =
      .ok ([], errs ++ [inp.local_currency ++ ": Could not retrieve rate"],
        fets) := by
    rw [liveLoop, if_neg hcq, hT]
    simp only []
    rw [liveLoop]
    simp
  have hglive : get_live_fx_rates P [inp.local_currency] cfg.output_currency
      cfg.live_fx_source now =
      .ok ([], pyJoin "; "
          (errs ++ [inp.local_currency ++ ": Could not retrieve rate"]),
        errs ++ [inp.local_currency ++ ": Could not retrieve rate"], fets) := by
    unfold get_live_fx_rates
    rw [hrun]
    have hne : (errs ++
        [inp.local_currency ++ ": Could not retrieve rate"]).isEmpty =
        false :=
      isEmpty_false_of_length_ne_zero (by simp)
    simp only []
    rw [hne]
    simp
  have hreq : (([inp].map (·.local_currency)).eraseDups) =
      [inp.local_currency] := rfl
  rw [hreq] at hfx
  unfold get_fx_rates at hfx
  rw [hmode] at hfx
  simp only [] at hfx
  rw [hglive] at hfx
  simp only [Except.ok.injEq, Prod.mk.injEq] at hfx
  obtain ⟨hrates, hstatus⟩ := hfx
  subst hrates
  subst hstatus
  subst houts
  subst hauds
  refine ⟨rfl, rfl,
    List.mem_append_right _ (List.mem_singleton.2 rfl), ?_, ?_, ?_⟩
  · simp [processInput, dlookup, convert_to_usd_none_right]
  · simp [processInput, dlookup, convert_to_usd_none_right]
  · intro a ha
    simp only [List.map_cons, List.map_nil, List.mem_singleton] at ha
    subst ha
    show ("fx_rate_" ++ inp.local_currency) ∈
      missingFieldsOf inp (dlookup [] inp.local_currency)
    unfold missingFieldsOf
    rw [if_pos (show dlookup ([] : Dict FXRate) inp.local_currency = none ∧
      inp.local_currency ≠ "USD" from ⟨rfl, hcu⟩)]
    exact List.mem_append_right _ (List.mem_singleton.2 rfl)

/-- The output record produced for `gbpInput` when both providers fail. -/
def gbpOut : ExchangeOutput :=
  ⟨"UK", "LSE", "FTSE 100", "GBP", none, "N/A", none, none, "N/A",
   none, none, "N/A", none, "manual", none, some 7⟩

/-- The audit record produced for `gbpInput` when both providers fail. -/
def gbpAudit : AuditRecord :=
  ⟨"LSE", "GBP", none, none, none, none, "N/A", none, none, 7,
   ["ytd_percent", "market_cap", "adtv", "fx_rate_GBP"]⟩

/-- Witness for C5 (amended), at GBP (not in the static set) with both
providers failing with non-200 responses. -/
theorem C5_unpegged_failure_amended_witness :
    compute_exchange_outputs bothFailProviders [gbpInput] liveDefaultConfig
      (0, 0) 7 = .ok ([gbpOut], [gbpAudit], [], "GBP: Could not retrieve rate") ∧
    (dlookup ([] : Dict FXRate) gbpInput.local_currency = none ∧
    "GBP: Could not retrieve rate" = pyJoin "; "
      ((liveTryCurrency bothFailProviders liveDefaultConfig.live_fx_source
          gbpInput.local_currency).2.1 ++
        [gbpInput.local_currency ++ ": Could not retrieve rate"]) ∧
    (gbpInput.local_currency ++ ": Could not retrieve rate") ∈
      ((liveTryCurrency bothFailProviders liveDefaultConfig.live_fx_source
          gbpInput.local_currency).2.1 ++
        [gbpInput.local_currency ++ ": Could not retrieve rate"]) ∧
    [gbpOut].map (·.market_cap_usd) = [none] ∧
    [gbpOut].map (·.adtv_usd) = [none] ∧
    ∀ a ∈ [gbpAudit],
      ("fx_rate_" ++ gbpInput.local_currency) ∈ a.missing_fields) :=
  ⟨rfl,
   C5_unpegged_failure_amended bothFailProviders liveDefaultConfig gbpInput
     (0, 0) 7 [gbpOut] [gbpAudit] [] "GBP: Could not retrieve rate"
     rfl (by decide) (by decide)
     (fun v hv => ProviderResult.noConfusion hv)
     (fun v hv => ProviderResult.noConfusion hv)
     rfl rfl⟩

/-- Claim C7: in Average mode, a required currency column with at least one
present in-window value resolves to the arithmetic mean of exactly those
values; a column that is absent or has zero present in-window values is
never averaged (in particular never to zero) and, when the window itself is
non-empty, is reported in the missing-columns status. -/
theorem C7_average_mode_mean (fx_df : FXDataFrame) (dates : List Nat)
    (sd ed : Nat) (cols : List String) (col : String)
    (hd : fx_df.dates = some dates)
    (hcol : col ∈ cols)
    (hnd : (cols.map (fun c => pyReplace c "USD" "")).Nodup) :
    ((colPresent dates fx_df.cols sd ed col ≠ []) →
      dlookup (calculate_average_fx_from_df fx_df sd ed cols).1
          (pyReplace col "USD" "") =
        some ((colPresent dates fx_df.cols sd ed col).sum /
          (colPresent dates fx_df.cols sd ed col).length)) ∧
    ((colPresent dates fx_df.cols sd ed col = []) →
      dlookup (calculate_average_fx_from_df fx_df sd ed cols).1
          (pyReplace col "USD" "") = none ∧
      (dates.filter (fun d => sd ≤ d && d ≤ ed) ≠ [] →
        col ∈ (avgLoop dates sd ed fx_df.cols cols [] []).2 ∧
        (calculate_average_fx_from_df fx_df sd ed cols).2 =
          "Calculated averages from " ++
            toString (dates.filter (fun d => sd ≤ d && d ≤ ed)).length ++
            " days" ++ "; Missing columns: " ++
            pyJoin ", " (avgLoop dates sd ed fx_df.cols cols [] []).2)) := by
  have hlookup := avgLoop_lookup dates sd ed fx_df.cols cols [] [] col hcol
    hnd rfl
  have hmiss := avgLoop_missing dates sd ed fx_df.cols cols [] []
  constructor
  · intro hne
    have hw : dates.filter (fun d => sd ≤ d && d ≤ ed) ≠ [] := by
      unfold colPresent at hne
      cases hDl : dlookup fx_df.cols col with
      | none =>
        rw [hDl] at hne
        exact absurd rfl hne
      | some vals =>
        rw [hDl] at hne
        exact inWindowPresent_window_ne_nil dates vals sd ed hne
    have hwb : (dates.filter (fun d => sd ≤ d && d ≤ ed)).isEmpty = false :=
      isEmpty_false_of_length_ne_zero (by
        intro hlen
        exact hw (List.length_eq_zero.mp hlen))
    unfold calculate_average_fx_from_df
    rw [hd]
    simp only []
    rw [if_neg (by simp [hwb])]
    rcases hA : avgLoop dates sd ed fx_df.cols cols [] [] with ⟨avgs, miss⟩
    simp only []
    rw [hA] at hlookup
    rw [hlookup,
      if_neg (by simp [isEmpty_false_of_length_ne_zero
        (fun hlen => hne (List.length_eq_zero.mp hlen))])]
  · intro hemp
    have hempb : (colPresent dates fx_df.cols sd ed col).isEmpty = true := by
      rw [hemp]
      rfl
    by_cases hw : dates.filter (fun d => sd ≤ d && d ≤ ed) = []
    · have hwb : (dates.filter (fun d => sd ≤ d && d ≤ ed)).isEmpty = true :=
        isEmpty_true_of_length_eq_zero (by rw [hw]; rfl)
      constructor
      · unfold calculate_average_fx_from_df
        rw [hd]
        simp only []
        rw [if_pos hwb]
        rfl
      · intro hcontra
        exact absurd hw hcontra
    · have hwb : (dates.filter (fun d => sd ≤ d && d ≤ ed)).isEmpty = false :=
        isEmpty_false_of_length_ne_zero (by
          intro hlen
          exact hw (List.length_eq_zero.mp hlen))
      have hmem : col ∈ (avgLoop dates sd ed fx_df.cols cols [] []).2 := by
        rw [hmiss]
        simp only [List.nil_append]
        exact List.mem_filter.mpr ⟨hcol, hempb⟩
      have hmissne : (avgLoop dates sd ed fx_df.cols cols [] []).2 ≠ [] :=
        List.ne_nil_of_mem hmem
      constructor
      · unfold calculate_average_fx_from_df
        rw [hd]
        simp only []
        rw [if_neg (by simp [hwb])]
        rcases hA : avgLoop dates sd ed fx_df.cols cols [] [] with ⟨avgs, miss⟩
        simp only []
        rw [hA] at hlookup
        rw [hlookup, if_pos hempb]
      · intro _
        refine ⟨hmem, ?_⟩
        unfold calculate_average_fx_from_df
        rw [hd]
        simp only []
        rw [if_neg (by simp [hwb])]
        rcases hA : avgLoop dates sd ed fx_df.cols cols [] [] with ⟨avgs, miss⟩
        simp only []
        rw [hA] at hmissne
        have hmb : miss.isEmpty = false :=
          isEmpty_false_of_length_ne_zero (by
            intro hlen
            exact hmissne (List.length_eq_zero.mp hlen))
        rw [hmb]
        simp only [Bool.false_eq_true, if_false]

/-- An average-mode rate frame with three dated rows: the AEDUSD column has
two present values inside the window [1, 2], the KWDUSD column has its only
present value outside the window. -/
def avgDf : FXDataFrame :=
  ⟨some [1, 2, 3],
   [("AEDUSD", [some 2, some 4, none]), ("KWDUSD", [none, none, some 9])]⟩

/-- Witness for C7: the AEDUSD column averages exactly its two in-window
values; the KWDUSD column (no in-window values) is absent from the averages
and reported among the missing columns. -/
theorem C7_average_mode_mean_witness :
    (colPresent [1, 2, 3] avgDf.cols 1 2 "AEDUSD" ≠ []) ∧
    dlookup (calculate_average_fx_from_df avgDf 1 2 ["AEDUSD", "KWDUSD"]).1
        (pyReplace "AEDUSD" "USD" "") =
      some ((colPresent [1, 2, 3] avgDf.cols 1 2 "AEDUSD").sum /
        (colPresent [1, 2, 3] avgDf.cols 1 2 "AEDUSD").length) ∧
    (colPresent [1, 2, 3] avgDf.cols 1 2 "KWDUSD" = []) ∧
    dlookup (calculate_average_fx_from_df avgDf 1 2 ["AEDUSD", "KWDUSD"]).1
        (pyReplace "KWDUSD" "USD" "") = none ∧
    "KWDUSD" ∈ (avgLoop [1, 2, 3] 1 2 avgDf.cols ["AEDUSD", "KWDUSD"] [] []).2 :=
  ⟨by decide,
   (C7_average_mode_mean avgDf [1, 2, 3] 1 2 ["AEDUSD", "KWDUSD"] "AEDUSD"
     rfl (by decide) (by decide)).1 (by decide),
   by decide,
   ((C7_average_mode_mean avgDf [1, 2, 3] 1 2 ["AEDUSD", "KWDUSD"] "KWDUSD"
     rfl (by decide) (by decide)).2 (by decide)).1,
   (((C7_average_mode_mean avgDf [1, 2, 3] 1 2 ["AEDUSD", "KWDUSD"] "KWDUSD"
     rfl (by decide) (by decide)).2 (by decide)).2 (by decide)).1⟩

end ExchangeApp
